import Mathlib

/-!
Verification development for the pms_server repository.

The embedding below translates the two source files, src/server.js and
src/worker/db_worker.js, into Lean definitions:

- the channel registry (a JS Map from channel name to an array of
  subscribed sockets) becomes an ordered association list;
- the per-connection heartbeat / close handling becomes an explicit
  event-step function on a connection-supervisor state;
- the worker-pool dispatcher (workerPool, requestQueue,
  assignWorkToWorker, the worker message handler) becomes a state
  machine with a reachability predicate;
- the database worker (parentPort message handler, handleInsertRequest)
  becomes a pure function from a message, a database state and a
  fault-injection record to an outcome recording the emitted signals,
  the acquisition and release of the pooled connection, and the insert
  attempts performed.

Connections are identified by natural numbers; the payload fields kept
are exactly the ones the source destructures.
-/

namespace PMS

/-- Connections (client WebSocket objects) are identified by a natural
number; the registry stores these identities. -/
abbrev Conn := Nat

/-- Sensor payload destructured by the worker from the data field of a
message: cluster_id, temperature, humidity. -/
structure SensorData where
  cluster_id : String
  temperature : Int
  humidity : Int
deriving DecidableEq

/-- Job message posted by the dispatcher to a worker, mirroring the
object postMessage sends: type, request, data.  The data field is an
Option because a client frame may omit it, in which case the worker
receives the JS value undefined. -/
structure Job where
  type : Int
  request : String
  data : Option SensorData
deriving DecidableEq

/-- Completion signal posted by a worker back to the server, mirroring
the object postMessageToParent sends: result and error. -/
structure Signal where
  result : String
  error : Option String
deriving DecidableEq

/-! ## Channel registry (src/server.js lines 82-134)

The channels Map is modelled as an ordered association list; the source
initialises it with the keys backend and frontend, in that order, and
never adds keys afterwards. -/

/-- Initial registry contents: channels.set backend, channels.set
frontend, both with empty subscriber arrays. -/
def initChannels : List (String × List Conn) :=
  [("backend", []), ("frontend", [])]

/-- Lookup of a channel in the registry, modelling channels.has followed
by channels.get: the first entry whose key matches. -/
def getChannel (t : String) : List (String × List Conn) → Option (List Conn)
  | [] => none
  | (n, subs) :: rest => if n = t then some subs else getChannel t rest

/-- Replacement of the subscriber array of a channel, modelling the
in-place push on the array held by the Map. -/
def setSubs (t : String) (ns : List Conn) :
    List (String × List Conn) → List (String × List Conn)
  | [] => []
  | (n, subs) :: rest =>
      if n = t then (n, ns) :: rest else (n, subs) :: setSubs t ns rest

/-- cleanupClient from src/server.js lines 112-120: iterate over the
subscriber arrays in registry order; in the first array in which
indexOf finds the connection, splice out that single occurrence, then
break out of the loop.  Later channels are not visited. -/
def cleanupClient (c : Conn) :
    List (String × List Conn) → List (String × List Conn)
  | [] => []
  | (n, subs) :: rest =>
      if c ∈ subs then (n, subs.erase c) :: rest
      else (n, subs) :: cleanupClient c rest

/-- Inbound frame after JSON.parse, with the four destructured fields
message_type, channel, request, data. -/
structure Frame where
  message_type : Int
  channel : String
  request : String
  data : Option SensorData
deriving DecidableEq

/-- Effect of processing one inbound frame: the updated registry, the
texts sent to the client, and the job forwarded to the dispatcher when
the channel is backend. -/
structure MsgEffect where
  channels : List (String × List Conn)
  sent : List String
  forwarded : Option Job
deriving DecidableEq

/-- Acknowledgment text prefix sent on a first successful subscribe. -/
def ackPrefixText : String := "You are connected to the channel "

/-- Message handler of handleSocketConnection, src/server.js lines
82-101.  A malformed frame (JSON.parse throws) is modelled by the none
case: the error is caught and logged, nothing changes.  For a known
channel, a connection not yet in the subscriber array is pushed and
acknowledged once; a message on the backend channel is additionally
forwarded to assignWorkToWorker. -/
def onSocketMessage (c : Conn) (chs : List (String × List Conn))
    (frame : Option Frame) : MsgEffect :=
  match frame with
  | none => ⟨chs, [], none⟩
  | some f =>
    match getChannel f.channel chs with
    | none => ⟨chs, [], none⟩
    | some subs =>
      let chs2 := if c ∈ subs then chs else setSubs f.channel (subs ++ [c]) chs
      let sent := if c ∈ subs then [] else [ackPrefixText ++ f.channel]
      let fwd := if f.channel = "backend"
        then some ⟨f.message_type, f.request, f.data⟩ else none
      ⟨chs2, sent, fwd⟩

/-! ## Connection supervisor (src/server.js lines 65-106)

Per-connection state of handleSocketConnection: the isAlive flag, the
heartbeat interval, and the transport.  One probe period of the
30000-unit interval is one tick event.  A local terminate of the
transport, like a remote close, makes the transport emit a close event
to the registered close handler (section 7 of the design treats the
forced close as a normal disconnection), which is modelled by the
closeEvt event being enabled once the transport is closed. -/

/-- Events a connection supervisor reacts to: a heartbeat interval
firing, a pong from the client, a client-initiated close of the
transport, and the transport delivering its close event to the close
handler registered on line 103. -/
inductive ConnEvent
  | tick
  | pong
  | clientClose
  | closeEvt
deriving DecidableEq

/-- State of one supervised connection together with the registry it is
recorded in: the isAlive flag, whether the interval is still armed,
whether the transport is closed, whether the close event has been
delivered, how many times cleanupClient has run for this connection,
and the registry contents. -/
structure SupState where
  isAlive : Bool
  timerArmed : Bool
  closed : Bool
  closeEmitted : Bool
  cleanups : Nat
  channels : List (String × List Conn)
deriving DecidableEq

/-- State of a connection right after accept: isAlive true, interval
armed, transport open, no cleanup yet. -/
def acceptState (chs : List (String × List Conn)) : SupState :=
  ⟨true, true, false, false, 0, chs⟩

/-- One event handled for connection c, following the handlers of
src/server.js lines 66-106.  A tick with the flag unset clears the
interval, terminates the transport and calls cleanupClient; a tick
with the flag set clears the flag and pings.  A pong on an open
transport sets the flag.  The close handler calls cleanupClient and
nothing else; in particular it does not clear the interval. -/
def stepConnEvent (c : Conn) (s : SupState) : ConnEvent → SupState
  | ConnEvent.tick =>
      if s.timerArmed then
        if s.isAlive then { s with isAlive := false }
        else { s with timerArmed := false, closed := true,
                      cleanups := s.cleanups + 1,
                      channels := cleanupClient c s.channels }
      else s
  | ConnEvent.pong => if s.closed then s else { s with isAlive := true }
  | ConnEvent.clientClose => if s.closed then s else { s with closed := true }
  | ConnEvent.closeEvt =>
      if s.closed ∧ s.closeEmitted = false then
        { s with closeEmitted := true, cleanups := s.cleanups + 1,
                 channels := cleanupClient c s.channels }
      else s

/-- Run of a sequence of events for connection c. -/
def runEvents (c : Conn) (s : SupState) : List ConnEvent → SupState
  | [] => s
  | e :: es => runEvents c (stepConnEvent c s e) es

/-- Total number of occurrences of connection c across all subscriber
arrays of the registry. -/
def occTotal (c : Conn) (chs : List (String × List Conn)) : Nat :=
  (chs.map fun p => p.2.count c).sum

/-! ## Database worker (src/worker/db_worker.js)

The worker runs against the external database collaborator.  The tables
it touches are modelled by a Db record: the set of cluster_id values in
cluster_records (as a list) and the number of rows in sensor_records.
Backend faults are injected through a Faults record: getConnectionFails
makes pool.getConnection reject, queryFails makes the first
connection.query performed for the job reject. -/

/-- State of the two database tables the worker writes.
clusterRecords lists the cluster_id column of cluster_records;
sensorRecords counts the rows of sensor_records. -/
structure Db where
  clusterRecords : List String
  sensorRecords : Nat
deriving DecidableEq

/-- Fault injection for one job: whether pool.getConnection rejects and
whether the first connection.query performed for the job rejects. -/
structure Faults where
  getConnectionFails : Bool
  queryFails : Bool
deriving DecidableEq

/-- Outcome of handleInsertRequest, src/worker/db_worker.js lines
52-67: the database afterwards, the number of INSERT attempts into
cluster_records, the signals posted by postMessageToParent, and whether
a rejected query escaped.  handleInsertRequest is async and its caller
does not await it, so a rejection inside it is not caught by the
try/catch of the message handler: it surfaces as an unhandled rejection
and no signal is posted for the job. -/
structure InsertOutcome where
  db : Db
  clusterInsertAttempts : Nat
  signals : List Signal
  uncaught : Bool
deriving DecidableEq

/-- Success result string posted by postMessageToParent. -/
def resultSuccessText : String := "success"

/-- Error result string posted by postMessageToParent. -/
def resultErrorText : String := "error"

/-- Message of the rejection of pool.getConnection in the model. -/
def errGetConnText : String := "getConnection failed"

/-- Message of the TypeError raised by destructuring the data field
when it is undefined. -/
def errDataUndefText : String := "cannot destructure data"

/-- Message of a rejected connection.query in the model. -/
def errQueryText : String := "query failed"

/-- handleInsertRequest from src/worker/db_worker.js lines 52-67.  For
type 0 it runs a SELECT for the cluster_id and only when zero rows come
back does it INSERT the cluster_id into cluster_records; for any other
type it inserts a row into sensor_records.  On every non-faulting path
it then posts a success signal.  A rejected query aborts the function
with nothing posted and the rejection left uncaught (the caller does
not await). -/
def handleInsertRequest (qFault : Bool) (db : Db) (ty : Int)
    (d : SensorData) : InsertOutcome :=
  if qFault then ⟨db, 0, [], true⟩
  else if ty = 0 then
    if (db.clusterRecords.filter fun x => x = d.cluster_id).length = 0 then
      ⟨⟨db.clusterRecords ++ [d.cluster_id], db.sensorRecords⟩, 1,
        [⟨resultSuccessText, none⟩], false⟩
    else ⟨db, 0, [⟨resultSuccessText, none⟩], false⟩
  else ⟨⟨db.clusterRecords, db.sensorRecords + 1⟩, 0,
        [⟨resultSuccessText, none⟩], false⟩

/-- Outcome of one message delivered to the worker: the database
afterwards, whether the pooled connection was acquired and whether it
was released, the signals posted, whether an unhandled rejection
escaped, and the number of INSERT attempts into cluster_records. -/
structure WorkerOutcome where
  db : Db
  acquired : Bool
  released : Bool
  signals : List Signal
  uncaught : Bool
  clusterInsertAttempts : Nat
deriving DecidableEq

/-- Message handler of the worker, src/worker/db_worker.js lines 20-34.
It awaits pool.getConnection inside a try/catch; a rejection there is
caught and posted as an error signal, with no connection acquired.
Destructuring the data field when it is undefined throws after the
connection was acquired; the catch posts an error signal but
releaseConnection on line 30 is skipped, so the connection is not
released.  When the request is insert, handleInsertRequest is called
without await and releaseConnection runs immediately after; a rejection
inside handleInsertRequest is therefore not caught here.  For any other
request nothing but releaseConnection happens and no signal is
posted. -/
def onWorkerMessage (f : Faults) (db : Db) (j : Job) : WorkerOutcome :=
  if f.getConnectionFails then
    ⟨db, false, false, [⟨resultErrorText, some errGetConnText⟩], false, 0⟩
  else
    match j.data with
    | none =>
        ⟨db, true, false, [⟨resultErrorText, some errDataUndefText⟩], false, 0⟩
    | some d =>
        if j.request = "insert" then
          let o := handleInsertRequest f.queryFails db j.type d
          ⟨o.db, true, true, o.signals, o.uncaught, o.clusterInsertAttempts⟩
        else ⟨db, true, true, [], false, 0⟩

/-! ## Worker pool and dispatcher (src/server.js lines 8-59)

The workerPool Set iterates in insertion order, fixed when
createWorkerPool adds the workers; it is modelled as a list in that
order.  Each pool entry carries its busy flag and, as specification
bookkeeping not present in the source, the job it currently holds and
is recorded together with two ghost counters: the number of jobs
submitted from the socket-message path and the number of completion
signals handled. -/

/-- One worker of the pool: the busy flag the source reads and writes,
plus the held job as specification bookkeeping. -/
structure WorkerSt where
  busy : Bool
  job : Option Job
deriving DecidableEq

/-- Dispatcher state: the pool in its fixed creation order, the
requestQueue array, and the two ghost counters. -/
structure PoolState where
  pool : List WorkerSt
  queue : List Job
  submitted : Nat
  completed : Nat
deriving DecidableEq

/-- Number of workers whose busy flag is set. -/
def busyCount (ws : List WorkerSt) : Nat :=
  (ws.filter fun w => w.busy).length

/-- Walk of finAvailableWorker (src/server.js lines 41-43) combined
with the assignment branch of assignWorkToWorker: scan the pool in
order; at the first worker whose busy flag is unset, post the job to it
and set its flag; return none when every worker is busy. -/
def assignFirst (j : Job) : List WorkerSt → Option (List WorkerSt)
  | [] => none
  | w :: ws =>
      if w.busy then (assignFirst j ws).map fun ws2 => w :: ws2
      else some (⟨true, some j⟩ :: ws)

/-- assignWorkToWorker from src/server.js lines 51-59: hand the job to
the first available worker and mark it busy, or, when none is
available, push the job onto the requestQueue. -/
def assignWorkToWorker (j : Job) (s : PoolState) : PoolState :=
  match assignFirst j s.pool with
  | some p2 => { s with pool := p2 }
  | none => { s with queue := s.queue ++ [j] }

/-- Submission of a job from the socket-message path (the
assignWorkToWorker call on src/server.js line 94), with the ghost
submitted counter incremented. -/
def submitJob (j : Job) (s : PoolState) : PoolState :=
  let s2 := assignWorkToWorker j s
  { s2 with submitted := s2.submitted + 1 }

/-- Message handler installed by handleWorkerMessages, src/server.js
lines 26-35, for the worker at position i of the pool: clear its busy
flag (the held job is dropped), and when the requestQueue is non-empty
shift its head and run assignWorkToWorker on it.  The content r of the
completion signal is only logged and does not influence the step; the
ghost completed counter is incremented. -/
def handleWorkerMessage (i : Nat) (r : Signal) (s : PoolState) : PoolState :=
  let s1 : PoolState :=
    { s with pool := s.pool.set i ⟨false, none⟩,
             completed := s.completed + 1 }
  match s1.queue with
  | [] => s1
  | j :: rest => assignWorkToWorker j { s1 with queue := rest }

/-- Dispatcher state right after createWorkerPool made n workers: all
idle, empty queue, zero counters. -/
def initState (n : Nat) : PoolState :=
  ⟨List.replicate n ⟨false, none⟩, [], 0, 0⟩

/-- Events of the dispatcher: a job submitted from the socket-message
path, or a completion signal from the busy worker at position i. -/
inductive Step : PoolState → PoolState → Prop
  | submit (j : Job) (s : PoolState) : Step s (submitJob j s)
  | complete (i : Nat) (r : Signal) (s : PoolState) (h : i < s.pool.length)
      (hb : (s.pool.get ⟨i, h⟩).busy = true) :
      Step s (handleWorkerMessage i r s)

/-- States reachable from the initial pool of n workers by submit and
completion events. -/
inductive Reachable (n : Nat) : PoolState → Prop
  | init : Reachable n (initState n)
  | step {s s2 : PoolState} : Reachable n s → Step s s2 → Reachable n s2

/-- Inductive invariant of the dispatcher: the busy flag of a worker is
set exactly when it holds a job; busy workers, queued jobs and handled
completions account for every submission; and a non-empty queue means
every worker is busy. -/
def Good (s : PoolState) : Prop :=
  (∀ w ∈ s.pool, w.busy = true ↔ w.job.isSome = true)
  ∧ busyCount s.pool + s.queue.length + s.completed = s.submitted
  ∧ (s.queue ≠ [] → ∀ w ∈ s.pool, w.busy = true)

/-! ## Dispatcher lemmas -/

theorem busyCount_cons (w : WorkerSt) (ws : List WorkerSt) :
    busyCount (w :: ws) = busyCount ws + if w.busy then 1 else 0 := by
  cases hb : w.busy <;> simp [busyCount, List.filter_cons, hb]

theorem busyCount_replicate_idle (n : Nat) :
    busyCount (List.replicate n ⟨false, none⟩) = 0 := by
  induction n with
  | zero => rfl
  | succ m ih => rw [List.replicate_succ, busyCount_cons, ih]; rfl

theorem assignFirst_none_iff (j : Job) :
    ∀ ws, assignFirst j ws = none ↔ ∀ w ∈ ws, w.busy = true := by
  intro ws
  induction ws with
  | nil => simp [assignFirst]
  | cons w rest ih =>
    cases hb : w.busy
    · simp [assignFirst, hb]
    · simp [assignFirst, hb, Option.map_eq_none, ih]

theorem assignFirst_some_busyCount (j : Job) :
    ∀ (ws ws2 : List WorkerSt), assignFirst j ws = some ws2 →
      busyCount ws2 = busyCount ws + 1 ∧ ws2.length = ws.length := by
  intro ws
  induction ws with
  | nil => intro ws2 h; simp [assignFirst] at h
  | cons w rest ih =>
    intro ws2 h
    cases hb : w.busy
    · rw [assignFirst, hb] at h
      simp only [Bool.false_eq_true, if_false] at h
      injection h with h
      subst h
      rw [busyCount_cons, busyCount_cons, hb]
      simp
    · rw [assignFirst, hb] at h
      simp only [if_true] at h
      rcases Option.map_eq_some.mp h with ⟨rest2, hr2, hw⟩
      subst hw
      rcases ih rest2 hr2 with ⟨hc, hl⟩
      rw [busyCount_cons, busyCount_cons, hb, hc]
      simp [hl]

theorem assignFirst_some_mem (j : Job) :
    ∀ (ws ws2 : List WorkerSt), assignFirst j ws = some ws2 →
      ∀ w ∈ ws2, w ∈ ws ∨ w = ⟨true, some j⟩ := by
  intro ws
  induction ws with
  | nil => intro ws2 h; simp [assignFirst] at h
  | cons w rest ih =>
    intro ws2 h u hu
    cases hb : w.busy
    · rw [assignFirst, hb] at h
      simp only [Bool.false_eq_true, if_false] at h
      injection h with h
      subst h
      rcases List.mem_cons.mp hu with hh | ht
      · right; exact hh
      · left; exact List.mem_cons_of_mem w ht
    · rw [assignFirst, hb] at h
      simp only [if_true] at h
      rcases Option.map_eq_some.mp h with ⟨rest2, hr2, hw⟩
      subst hw
      rcases List.mem_cons.mp hu with hh | ht
      · left; exact List.mem_cons.mpr (Or.inl hh)
      · rcases ih rest2 hr2 u ht with hm | he
        · left; exact List.mem_cons_of_mem w hm
        · right; exact he

theorem assignFirst_decomp (j : Job) :
    ∀ (pre : List WorkerSt) (wk : WorkerSt) (post : List WorkerSt),
      (∀ u ∈ pre, u.busy = true) → wk.busy = false →
      assignFirst j (pre ++ wk :: post)
        = some (pre ++ (⟨true, some j⟩ : WorkerSt) :: post) := by
  intro pre
  induction pre with
  | nil =>
    intro wk post _ hwk
    rw [List.nil_append, List.nil_append, assignFirst, hwk]
    simp
  | cons u rest ih =>
    intro wk post hpre hwk
    have hu : u.busy = true := hpre u (List.mem_cons_self u rest)
    rw [List.cons_append, assignFirst, hu]
    simp only [if_true]
    rw [ih wk post (fun v hv => hpre v (List.mem_cons_of_mem u hv)) hwk]
    rfl

theorem all_busy_assignFirst_set (j : Job) :
    ∀ (ws : List WorkerSt) (i : Nat), i < ws.length →
      (∀ w ∈ ws, w.busy = true) →
      assignFirst j (ws.set i ⟨false, none⟩)
        = some (ws.set i ⟨true, some j⟩) := by
  intro ws
  induction ws with
  | nil => intro i h; simp at h
  | cons w rest ih =>
    intro i hi hall
    cases i with
    | zero =>
      rw [List.set_cons_zero, List.set_cons_zero, assignFirst]
      simp
    | succ m =>
      have hw : w.busy = true := hall w (List.mem_cons_self w rest)
      rw [List.set_cons_succ, List.set_cons_succ, assignFirst, hw]
      simp only [if_true]
      rw [ih m (by simpa using hi)
        (fun v hv => hall v (List.mem_cons_of_mem w hv))]
      rfl

theorem busyCount_set_idle :
    ∀ (ws : List WorkerSt) (i : Nat) (h : i < ws.length),
      (ws.get ⟨i, h⟩).busy = true →
      busyCount (ws.set i ⟨false, none⟩) + 1 = busyCount ws := by
  intro ws
  induction ws with
  | nil => intro i h; simp at h
  | cons w rest ih =>
    intro i hi hb
    cases i with
    | zero =>
      rw [List.set_cons_zero, busyCount_cons, busyCount_cons]
      have hw : w.busy = true := hb
      rw [hw]
      simp
    | succ m =>
      have hm : m < rest.length := by simpa using hi
      rw [List.set_cons_succ, busyCount_cons, busyCount_cons]
      have := ih m hm hb
      omega

theorem good_init (n : Nat) : Good (initState n) := by
  refine ⟨?_, ?_, ?_⟩
  · intro w hw
    have := List.eq_of_mem_replicate hw
    subst this
    simp
  · simp [initState, busyCount_replicate_idle]
  · intro hq
    exact absurd rfl hq

theorem good_submit (j : Job) (s : PoolState) (hg : Good s) :
    Good (submitJob j s) := by
  obtain ⟨hbj, hcount, hqb⟩ := hg
  cases ha : assignFirst j s.pool with
  | none =>
    have hall : ∀ w ∈ s.pool, w.busy = true := (assignFirst_none_iff j s.pool).mp ha
    refine ⟨?_, ?_, ?_⟩
    · intro w hw
      simp only [submitJob, assignWorkToWorker, ha] at hw
      exact hbj w hw
    · simp only [submitJob, assignWorkToWorker, ha]
      simp
      omega
    · intro _ w hw
      simp only [submitJob, assignWorkToWorker, ha] at hw
      exact hall w hw
  | some p2 =>
    rcases assignFirst_some_busyCount j s.pool p2 ha with ⟨hc2, _⟩
    refine ⟨?_, ?_, ?_⟩
    · intro w hw
      simp only [submitJob, assignWorkToWorker, ha] at hw
      rcases assignFirst_some_mem j s.pool p2 ha w hw with hm | he
      · exact hbj w hm
      · subst he; simp
    · simp only [submitJob, assignWorkToWorker, ha]
      simp [hc2]
      omega
    · intro hq w hw
      simp only [submitJob, assignWorkToWorker, ha] at hw hq
      rcases assignFirst_some_mem j s.pool p2 ha w hw with hm | he
      · exact hqb hq w hm
      · subst he; rfl

theorem good_complete (i : Nat) (r : Signal) (s : PoolState)
    (h : i < s.pool.length) (hb : (s.pool.get ⟨i, h⟩).busy = true)
    (hg : Good s) : Good (handleWorkerMessage i r s) := by
  obtain ⟨hbj, hcount, hqb⟩ := hg
  have hset : busyCount (s.pool.set i ⟨false, none⟩) + 1 = busyCount s.pool :=
    busyCount_set_idle s.pool i h hb
  have hmemset : ∀ w ∈ s.pool.set i (⟨false, none⟩ : WorkerSt),
      w ∈ s.pool ∨ w = ⟨false, none⟩ := fun w hw =>
    List.mem_or_eq_of_mem_set hw
  cases hq : s.queue with
  | nil =>
    refine ⟨?_, ?_, ?_⟩
    · intro w hw
      simp only [handleWorkerMessage, hq] at hw
      rcases hmemset w hw with hm | he
      · exact hbj w hm
      · subst he; simp
    · simp only [handleWorkerMessage, hq]
      simp
      rw [hq] at hcount
      simp at hcount
      omega
    · intro hq2
      simp only [handleWorkerMessage, hq] at hq2
      exact absurd rfl hq2
  | cons jq rest =>
    have hall : ∀ w ∈ s.pool, w.busy = true := hqb (by rw [hq]; simp)
    have has : assignFirst jq (s.pool.set i ⟨false, none⟩)
        = some (s.pool.set i ⟨true, some jq⟩) :=
      all_busy_assignFirst_set jq s.pool i h hall
    have hres : handleWorkerMessage i r s
        = ⟨s.pool.set i ⟨true, some jq⟩, rest, s.submitted, s.completed + 1⟩ := by
      simp only [handleWorkerMessage, hq, assignWorkToWorker, has]
    rw [hres]
    have hmemset2 : ∀ w ∈ s.pool.set i (⟨true, some jq⟩ : WorkerSt),
        w ∈ s.pool ∨ w = ⟨true, some jq⟩ := fun w hw =>
      List.mem_or_eq_of_mem_set hw
    refine ⟨?_, ?_, ?_⟩
    · intro w hw
      rcases hmemset2 w hw with hm | he
      · exact hbj w hm
      · subst he; simp
    · rcases assignFirst_some_busyCount jq (s.pool.set i ⟨false, none⟩)
        (s.pool.set i ⟨true, some jq⟩) has with ⟨hc2, _⟩
      simp only []
      rw [hc2]
      rw [hq] at hcount
      simp at hcount
      omega
    · intro _ w hw
      rcases hmemset2 w hw with hm | he
      · exact hall w hm
      · subst he; rfl

theorem reachable_good (n : Nat) (s : PoolState) (h : Reachable n s) :
    Good s := by
  induction h with
  | init => exact good_init n
  | step _ hstep ih =>
    cases hstep with
    | submit j => exact good_submit j _ ih
    | complete i r2 s0 hlen hb => exact good_complete i r2 _ hlen hb ih

/-! ## Registry lemmas -/

theorem occTotal_cons (c : Conn) (n : String) (subs : List Conn)
    (rest : List (String × List Conn)) :
    occTotal c ((n, subs) :: rest) = subs.count c + occTotal c rest := by
  simp [occTotal]

theorem occTotal_zero_not_mem (c : Conn) :
    ∀ chs, occTotal c chs = 0 → ∀ p ∈ chs, c ∉ p.2 := by
  intro chs
  induction chs with
  | nil => intro _ p hp; simp at hp
  | cons hd rest ih =>
    obtain ⟨n, subs⟩ := hd
    intro h0 p hp
    rw [occTotal_cons] at h0
    rcases List.mem_cons.mp hp with hph | hpt
    · subst hph
      show c ∉ subs
      exact List.count_eq_zero.mp (by omega)
    · exact ih (by omega) p hpt

theorem cleanupClient_not_mem (c : Conn) :
    ∀ chs, occTotal c chs ≤ 1 → ∀ p ∈ cleanupClient c chs, c ∉ p.2 := by
  intro chs
  induction chs with
  | nil => intro _ p hp; simp [cleanupClient] at hp
  | cons hd rest ih =>
    obtain ⟨n, subs⟩ := hd
    intro h1 p hp
    rw [occTotal_cons] at h1
    by_cases hc : c ∈ subs
    · rw [cleanupClient, if_pos hc] at hp
      have hcp : 0 < subs.count c := List.count_pos_iff.mpr hc
      rcases List.mem_cons.mp hp with hph | hpt
      · subst hph
        show c ∉ subs.erase c
        refine List.count_eq_zero.mp ?_
        rw [List.count_erase_self]
        omega
      · exact occTotal_zero_not_mem c rest (by omega) p hpt
    · rw [cleanupClient, if_neg hc] at hp
      rcases List.mem_cons.mp hp with hph | hpt
      · subst hph; exact hc
      · have hz : subs.count c = 0 := List.count_eq_zero.mpr hc
        exact ih (by omega) p hpt

theorem getChannel_setSubs (t : String) (ns : List Conn) :
    ∀ chs subs, getChannel t chs = some subs →
      getChannel t (setSubs t ns chs) = some ns := by
  intro chs
  induction chs with
  | nil => intro subs h; simp [getChannel] at h
  | cons hd rest ih =>
    obtain ⟨n, subs0⟩ := hd
    intro subs h
    by_cases hn : n = t
    · rw [setSubs, if_pos hn, getChannel, if_pos hn]
    · rw [getChannel, if_neg hn] at h
      rw [setSubs, if_neg hn, getChannel, if_neg hn]
      exact ih subs h

/-! ## Claim theorems for the registry and the connection supervisor -/

/-- C1: the claim states that cleaning up a connection removes it from
the subscriber set of every topic it was subscribed to.  The code
violates this: the loop of cleanupClient breaks after splicing the
connection out of the first channel whose array contains it, so a
connection subscribed to both startup channels is removed from backend
only and stays in the frontend subscriber array.  This theorem
evaluates cleanupClient at that failing input. -/
theorem cleanupClient_break_leaves_later_channel :
    cleanupClient 0 [("backend", [0]), ("frontend", [0])]
        = [("backend", []), ("frontend", [0])]
    ∧ getChannel "frontend"
        (cleanupClient 0 [("backend", [0]), ("frontend", [0])]) = some [0] := by
  decide

/-- C9: subscribe is idempotent.  For a registry channel t with
subscriber array subs not containing c, the first message appends c
exactly once and sends exactly one acknowledgment text, a second
identical message leaves the registry unchanged and sends nothing, and
a message from a connection already subscribed is a no-op with no
acknowledgment. -/
theorem subscribe_idempotent (chs : List (String × List Conn)) (c : Conn)
    (t : String) (subs : List Conn) (k : Int) (r : String)
    (d : Option SensorData)
    (hget : getChannel t chs = some subs) (hnot : c ∉ subs) :
    (onSocketMessage c chs (some ⟨k, t, r, d⟩)).sent = [ackPrefixText ++ t]
    ∧ getChannel t (onSocketMessage c chs (some ⟨k, t, r, d⟩)).channels
        = some (subs ++ [c])
    ∧ (subs ++ [c]).count c = 1
    ∧ (onSocketMessage c (onSocketMessage c chs (some ⟨k, t, r, d⟩)).channels
        (some ⟨k, t, r, d⟩)).channels
        = (onSocketMessage c chs (some ⟨k, t, r, d⟩)).channels
    ∧ (onSocketMessage c (onSocketMessage c chs (some ⟨k, t, r, d⟩)).channels
        (some ⟨k, t, r, d⟩)).sent = []
    ∧ ∀ chs0 subs0, getChannel t chs0 = some subs0 → c ∈ subs0 →
        (onSocketMessage c chs0 (some ⟨k, t, r, d⟩)).channels = chs0
        ∧ (onSocketMessage c chs0 (some ⟨k, t, r, d⟩)).sent = [] := by
  have key : ∀ chs0 subs0, getChannel t chs0 = some subs0 → c ∈ subs0 →
      (onSocketMessage c chs0 (some ⟨k, t, r, d⟩)).channels = chs0
      ∧ (onSocketMessage c chs0 (some ⟨k, t, r, d⟩)).sent = [] := by
    intro chs0 subs0 hget0 hmem0
    constructor
    · simp [onSocketMessage, hget0, hmem0]
    · simp [onSocketMessage, hget0, hmem0]
  have h1 : (onSocketMessage c chs (some ⟨k, t, r, d⟩)).channels
      = setSubs t (subs ++ [c]) chs := by
    simp [onSocketMessage, hget, hnot]
  have h2 : getChannel t (onSocketMessage c chs (some ⟨k, t, r, d⟩)).channels
      = some (subs ++ [c]) := by
    rw [h1]; exact getChannel_setSubs t (subs ++ [c]) chs subs hget
  have hcmem : c ∈ subs ++ [c] := List.mem_append_right subs (List.mem_singleton.mpr rfl)
  refine ⟨by simp [onSocketMessage, hget, hnot], h2, ?_,
    (key _ _ h2 hcmem).1, (key _ _ h2 hcmem).2, key⟩
  rw [List.count_append, List.count_eq_zero.mpr hnot]
  simp

/-- C9 witness: idempotent subscribe exercised on the startup registry,
connection 0 subscribing twice to the frontend channel. -/
theorem subscribe_idempotent_witness :
    (onSocketMessage 0 initChannels (some ⟨1, "frontend", "", none⟩)).sent
        = [ackPrefixText ++ "frontend"]
    ∧ getChannel "frontend"
        (onSocketMessage 0 initChannels (some ⟨1, "frontend", "", none⟩)).channels
        = some ([] ++ [0])
    ∧ (([] : List Conn) ++ [0]).count 0 = 1
    ∧ (onSocketMessage 0
        (onSocketMessage 0 initChannels (some ⟨1, "frontend", "", none⟩)).channels
        (some ⟨1, "frontend", "", none⟩)).channels
        = (onSocketMessage 0 initChannels (some ⟨1, "frontend", "", none⟩)).channels
    ∧ (onSocketMessage 0
        (onSocketMessage 0 initChannels (some ⟨1, "frontend", "", none⟩)).channels
        (some ⟨1, "frontend", "", none⟩)).sent = []
    ∧ ∀ chs0 subs0, getChannel "frontend" chs0 = some subs0 → 0 ∈ subs0 →
        (onSocketMessage 0 chs0 (some ⟨1, "frontend", "", none⟩)).channels = chs0
        ∧ (onSocketMessage 0 chs0 (some ⟨1, "frontend", "", none⟩)).sent = [] :=
  subscribe_idempotent initChannels 0 "frontend" [] 1 "" none (by decide)
    (by decide)

/-- C7 counterexample: a connection subscribed to both startup channels
that never answers a probe.  At the second tick it is terminated, the
interval is cleared and cleanupClient runs, but the connection is still
in the frontend subscriber array, so the cleanup invoked at that probe
period did not remove it from the subscriber set of every topic. -/
theorem heartbeat_termination_leaves_subscription :
    (runEvents 0 (acceptState [("backend", [0]), ("frontend", [0])])
        [ConnEvent.tick, ConnEvent.tick]).closed = true
    ∧ (runEvents 0 (acceptState [("backend", [0]), ("frontend", [0])])
        [ConnEvent.tick, ConnEvent.tick]).timerArmed = false
    ∧ (runEvents 0 (acceptState [("backend", [0]), ("frontend", [0])])
        [ConnEvent.tick, ConnEvent.tick]).cleanups = 1
    ∧ getChannel "frontend"
        (runEvents 0 (acceptState [("backend", [0]), ("frontend", [0])])
          [ConnEvent.tick, ConnEvent.tick]).channels = some [0] := by
  decide

/-- C7 amended: a connection that never answers a probe is terminated
at the second tick after accept, two probe periods of 30 time-units
after its last sign of life: the interval is cancelled, the transport
is forcibly closed, and cleanupClient is invoked, which removes the
connection from the first channel in registry order whose subscriber
array contains it.  When the connection occurs in at most one
subscriber array, it is afterwards in no subscriber array. -/
theorem heartbeat_terminates_after_two_silent_ticks
    (chs : List (String × List Conn)) (c : Conn) (h : occTotal c chs ≤ 1) :
    runEvents c (acceptState chs) [ConnEvent.tick, ConnEvent.tick]
        = ⟨false, false, true, false, 1, cleanupClient c chs⟩
    ∧ ∀ p ∈ cleanupClient c chs, c ∉ p.2 :=
  ⟨rfl, cleanupClient_not_mem c chs h⟩

/-- C7 witness: a connection subscribed only to the backend channel is
gone from every subscriber array after the two silent ticks. -/
theorem heartbeat_two_ticks_witness :
    runEvents 0 (acceptState [("backend", [0]), ("frontend", [])])
        [ConnEvent.tick, ConnEvent.tick]
        = ⟨false, false, true, false, 1,
            cleanupClient 0 [("backend", [0]), ("frontend", [])]⟩
    ∧ ∀ p ∈ cleanupClient 0 [("backend", [0]), ("frontend", [])], 0 ∉ p.2 :=
  heartbeat_terminates_after_two_silent_ticks
    [("backend", [0]), ("frontend", [])] 0 (by decide)

/-- C8 counterexample: on the liveness-termination path the cleanup is
invoked twice for the same connection, not exactly once: the tick with
the flag unset calls cleanupClient directly and the terminate call
closes the transport, whose close event runs the close handler, which
calls cleanupClient again. -/
theorem liveness_termination_double_cleanup :
    (runEvents 0 (acceptState [("backend", [0]), ("frontend", [0])])
        [ConnEvent.tick, ConnEvent.tick, ConnEvent.closeEvt]).cleanups = 2 := by
  decide

/-- C8 amended: the cleanup is invoked twice on every way a connection
ends, for any registry contents.  On liveness termination the missed
tick calls cleanupClient and then the close event of the forced close
runs the close handler, which calls it again; on a client-initiated
close the close handler calls cleanupClient once but does not clear the
interval, so the still-armed heartbeat reaches a missed tick and calls
it a second time. -/
theorem cleanup_invoked_twice_on_both_end_paths
    (chs : List (String × List Conn)) (c : Conn) :
    (runEvents c (acceptState chs)
        [ConnEvent.tick, ConnEvent.tick, ConnEvent.closeEvt]).cleanups = 2
    ∧ (runEvents c (acceptState chs)
        [ConnEvent.clientClose, ConnEvent.closeEvt,
          ConnEvent.tick, ConnEvent.tick]).cleanups = 2 :=
  ⟨rfl, rfl⟩

/-! ## Claim theorems for the database worker -/

/-- C2 counterexample: a job whose request field is not insert, here an
update job with a well-formed payload and a healthy backend, makes the
worker emit zero completion signals, not exactly one: the message
handler only calls handleInsertRequest for the insert request and posts
nothing on any other path. -/
theorem worker_update_request_emits_no_signal :
    (onWorkerMessage ⟨false, false⟩ ⟨[], 0⟩
        ⟨1, "update", some ⟨"c1", 20, 50⟩⟩).signals = [] := by
  decide

/-- C2 amended: the worker never emits more than one signal per job,
and exactly which signals it emits depends on the operation and the
fault: one error signal when pool.getConnection rejects or when the
data field fails to destructure; one success signal for an insert job
with a present payload and no query fault; no signal at all for a job
whose request is not insert; and no signal for an insert job whose
query rejects, since handleInsertRequest is not awaited and its
rejection escapes the try/catch as an unhandled rejection instead of
being reported. -/
theorem handleInsertRequest_no_fault (db : Db) (ty : Int) (d : SensorData) :
    (handleInsertRequest false db ty d).signals = [⟨resultSuccessText, none⟩]
    ∧ (handleInsertRequest false db ty d).uncaught = false := by
  simp only [handleInsertRequest]
  split_ifs <;> simp_all

theorem worker_signal_cases (f : Faults) (db : Db) (j : Job) :
    (onWorkerMessage f db j).signals.length ≤ 1
    ∧ (f.getConnectionFails = true →
        (onWorkerMessage f db j).signals
          = [⟨resultErrorText, some errGetConnText⟩])
    ∧ (f.getConnectionFails = false → j.data = none →
        (onWorkerMessage f db j).signals
          = [⟨resultErrorText, some errDataUndefText⟩])
    ∧ (∀ d, f.getConnectionFails = false → j.data = some d →
        j.request = "insert" → f.queryFails = false →
        (onWorkerMessage f db j).signals = [⟨resultSuccessText, none⟩]
        ∧ (onWorkerMessage f db j).uncaught = false)
    ∧ (f.getConnectionFails = false → j.data ≠ none → j.request ≠ "insert" →
        (onWorkerMessage f db j).signals = [])
    ∧ (∀ d, f.getConnectionFails = false → j.data = some d →
        j.request = "insert" → f.queryFails = true →
        (onWorkerMessage f db j).signals = []
        ∧ (onWorkerMessage f db j).uncaught = true) := by
  obtain ⟨fg, fq⟩ := f
  obtain ⟨ty, req, dat⟩ := j
  cases fg
  · cases dat with
    | none => simp [onWorkerMessage]
    | some d =>
      by_cases hr : req = "insert"
      · cases fq
        · have hs := handleInsertRequest_no_fault db ty d
          have he : (onWorkerMessage ⟨false, false⟩ db ⟨ty, req, some d⟩).signals
              = (handleInsertRequest false db ty d).signals := by
            simp [onWorkerMessage, hr]
          have hu : (onWorkerMessage ⟨false, false⟩ db ⟨ty, req, some d⟩).uncaught
              = (handleInsertRequest false db ty d).uncaught := by
            simp [onWorkerMessage, hr]
          refine ⟨?_, by simp, by simp, ?_, by simp [hr], ?_⟩
          · rw [he, hs.1]; simp
          · intro d2 _ hd2 _ _
            have hdd : d = d2 := by injection hd2
            subst hdd
            exact ⟨he.trans hs.1, hu.trans hs.2⟩
          · intro d2 _ _ _ hq
            exact absurd hq (by simp)
        · refine ⟨?_, by simp, by simp, ?_, by simp [hr], ?_⟩
          · simp [onWorkerMessage, hr, handleInsertRequest]
          · intro d2 _ _ _ hq
            exact absurd hq (by simp)
          · intro d2 _ hd2 _ _
            have hdd : d = d2 := by injection hd2
            subst hdd
            constructor
            · simp [onWorkerMessage, hr, handleInsertRequest]
            · simp [onWorkerMessage, hr, handleInsertRequest]
      · simp [onWorkerMessage, hr]
  · simp [onWorkerMessage]

/-- C2 witness: a healthy kind-0 insert job emits exactly the one
success signal and nothing escapes uncaught. -/
theorem worker_signal_cases_witness :
    (onWorkerMessage ⟨false, false⟩ ⟨[], 0⟩
        ⟨0, "insert", some ⟨"c1", 20, 50⟩⟩).signals = [⟨resultSuccessText, none⟩]
    ∧ (onWorkerMessage ⟨false, false⟩ ⟨[], 0⟩
        ⟨0, "insert", some ⟨"c1", 20, 50⟩⟩).uncaught = false :=
  (worker_signal_cases ⟨false, false⟩ ⟨[], 0⟩
      ⟨0, "insert", some ⟨"c1", 20, 50⟩⟩).2.2.2.1
    ⟨"c1", 20, 50⟩ rfl rfl rfl rfl

/-- C3 counterexample: an insert job whose data field is undefined, so
that destructuring it throws after pool.getConnection resolved.  The
catch posts an error signal but the releaseConnection call below the
throwing line never runs: the handle is acquired and not released on
this error exit path. -/
theorem worker_leaks_connection_on_malformed_data :
    (onWorkerMessage ⟨false, false⟩ ⟨[], 0⟩ ⟨0, "insert", none⟩).acquired = true
    ∧ (onWorkerMessage ⟨false, false⟩ ⟨[], 0⟩
        ⟨0, "insert", none⟩).released = false := by
  decide

/-- C3 amended: the handle is acquired exactly when pool.getConnection
resolves, and it is released exactly on the paths where the data field
also destructures, whatever the request field and whatever the backend
queries do; on the error path where the payload fails to destructure
after acquisition, the handle is not released. -/
theorem worker_release_characterization (f : Faults) (db : Db) (j : Job) :
    ((onWorkerMessage f db j).acquired = true ↔ f.getConnectionFails = false)
    ∧ ((onWorkerMessage f db j).released = true ↔
        (f.getConnectionFails = false ∧ j.data.isSome = true)) := by
  obtain ⟨fg, fq⟩ := f
  obtain ⟨ty, req, dat⟩ := j
  cases fg
  · cases dat with
    | none => simp [onWorkerMessage]
    | some d =>
      by_cases hr : req = "insert"
      · simp [onWorkerMessage, hr]
      · simp [onWorkerMessage, hr]
  · simp [onWorkerMessage]

/-- C3 witness: the release characterization instantiated at a healthy
backend and a well-formed insert job, where the handle is acquired and
released. -/
theorem worker_release_characterization_witness :
    ((onWorkerMessage ⟨false, false⟩ ⟨[], 0⟩
        ⟨0, "insert", some ⟨"c1", 20, 50⟩⟩).acquired = true
      ↔ (⟨false, false⟩ : Faults).getConnectionFails = false)
    ∧ ((onWorkerMessage ⟨false, false⟩ ⟨[], 0⟩
        ⟨0, "insert", some ⟨"c1", 20, 50⟩⟩).released = true
      ↔ ((⟨false, false⟩ : Faults).getConnectionFails = false
          ∧ (some (⟨"c1", 20, 50⟩ : SensorData)).isSome = true)) :=
  worker_release_characterization ⟨false, false⟩ ⟨[], 0⟩
    ⟨0, "insert", some ⟨"c1", 20, 50⟩⟩

/-- C10: the existence check makes the kind-0 insert idempotent.  A
first kind-0 insert job for a cluster_id absent from cluster_records
performs exactly one insert attempt for it and records it; a repeat job
with the same cluster_id finds the row by the SELECT and performs zero
additional insert attempts, leaving the database unchanged. -/
theorem cluster_insert_idempotent (db : Db) (d : SensorData)
    (h : d.cluster_id ∉ db.clusterRecords) :
    (onWorkerMessage ⟨false, false⟩ db
        ⟨0, "insert", some d⟩).clusterInsertAttempts = 1
    ∧ d.cluster_id ∈ (onWorkerMessage ⟨false, false⟩ db
        ⟨0, "insert", some d⟩).db.clusterRecords
    ∧ (onWorkerMessage ⟨false, false⟩
        (onWorkerMessage ⟨false, false⟩ db ⟨0, "insert", some d⟩).db
        ⟨0, "insert", some d⟩).clusterInsertAttempts = 0
    ∧ (onWorkerMessage ⟨false, false⟩
        (onWorkerMessage ⟨false, false⟩ db ⟨0, "insert", some d⟩).db
        ⟨0, "insert", some d⟩).db
      = (onWorkerMessage ⟨false, false⟩ db ⟨0, "insert", some d⟩).db := by
  have hfil : (db.clusterRecords.filter fun x => x = d.cluster_id).length = 0 := by
    rw [List.length_eq_zero, List.filter_eq_nil_iff]
    intro a ha
    simp only [decide_eq_true_eq]
    intro he
    exact h (he ▸ ha)
  have h1 : onWorkerMessage ⟨false, false⟩ db ⟨0, "insert", some d⟩
      = ⟨⟨db.clusterRecords ++ [d.cluster_id], db.sensorRecords⟩, true, true,
          [⟨resultSuccessText, none⟩], false, 1⟩ := by
    simp [onWorkerMessage, handleInsertRequest, hfil]
  have hmem2 : d.cluster_id ∈ db.clusterRecords ++ [d.cluster_id] :=
    List.mem_append_right _ (List.mem_singleton.mpr rfl)
  have hfil2 : ¬ (((db.clusterRecords ++ [d.cluster_id]).filter
      fun x => x = d.cluster_id).length = 0) := by
    rw [List.length_eq_zero, List.filter_eq_nil_iff]
    intro hall
    have hda := hall d.cluster_id hmem2
    simp at hda
  have h2 : onWorkerMessage ⟨false, false⟩
      ⟨db.clusterRecords ++ [d.cluster_id], db.sensorRecords⟩
      ⟨0, "insert", some d⟩
      = ⟨⟨db.clusterRecords ++ [d.cluster_id], db.sensorRecords⟩, true, true,
          [⟨resultSuccessText, none⟩], false, 0⟩ := by
    simp [onWorkerMessage, handleInsertRequest, hfil2]
  rw [h1]
  refine ⟨rfl, hmem2, ?_, ?_⟩
  · rw [h2]
  · rw [h2]

/-! ## Claim theorems for the dispatcher -/

/-- C4: in every reachable dispatcher state, the number of busy workers
plus the length of the requestQueue equals the number of jobs submitted
minus the number of jobs completed, and the busy flag of a worker is
set exactly when the worker holds an unfinished job. -/
theorem pool_queue_accounting (n : Nat) (s : PoolState)
    (h : Reachable n s) :
    busyCount s.pool + s.queue.length = s.submitted - s.completed
    ∧ s.completed ≤ s.submitted
    ∧ ∀ w ∈ s.pool, (w.busy = true ↔ w.job.isSome = true) := by
  obtain ⟨hbj, hcount, _⟩ := reachable_good n s h
  exact ⟨by omega, by omega, hbj⟩

/-- C4 witness: the accounting invariant at the initial three-worker
pool, which is reachable by the empty event sequence. -/
theorem pool_queue_accounting_witness :
    busyCount (initState 3).pool + (initState 3).queue.length
        = (initState 3).submitted - (initState 3).completed
    ∧ (initState 3).completed ≤ (initState 3).submitted
    ∧ ∀ w ∈ (initState 3).pool, (w.busy = true ↔ w.job.isSome = true) :=
  pool_queue_accounting 3 (initState 3) Reachable.init

/-- C5: submitting a job never fails for the caller (submitJob is a
total function on every pool state).  When every worker is busy the job
is appended to the tail of the requestQueue and the pool is unchanged;
when the pool splits as pre ++ wk :: post with every worker of pre busy
and wk idle, the first idle worker in the fixed creation order, wk,
receives the job and is marked busy, and the queue is unchanged. -/
theorem submit_characterization (j : Job) (s : PoolState) :
    ((∀ w ∈ s.pool, w.busy = true) →
      submitJob j s = ⟨s.pool, s.queue ++ [j], s.submitted + 1, s.completed⟩)
    ∧ ∀ (pre : List WorkerSt) (wk : WorkerSt) (post : List WorkerSt),
        s.pool = pre ++ wk :: post → (∀ u ∈ pre, u.busy = true) →
        wk.busy = false →
        submitJob j s = ⟨pre ++ (⟨true, some j⟩ : WorkerSt) :: post,
          s.queue, s.submitted + 1, s.completed⟩ := by
  constructor
  · intro hall
    have ha : assignFirst j s.pool = none := (assignFirst_none_iff j s.pool).mpr hall
    simp only [submitJob, assignWorkToWorker, ha]
  · intro pre wk post hpool hpre hwk
    have ha : assignFirst j s.pool
        = some (pre ++ (⟨true, some j⟩ : WorkerSt) :: post) := by
      rw [hpool]
      exact assignFirst_decomp j pre wk post hpre hwk
    simp only [submitJob, assignWorkToWorker, ha]

/-- C5 witness: a pool of two workers whose first worker is busy and
whose second is idle receives the job at the second worker; a pool in
which both are busy queues the job. -/
theorem submit_characterization_witness :
    submitJob ⟨0, "insert", none⟩
        ⟨[⟨true, some ⟨1, "u", none⟩⟩, ⟨false, none⟩], [], 1, 0⟩
      = ⟨[⟨true, some ⟨1, "u", none⟩⟩,
          (⟨true, some ⟨0, "insert", none⟩⟩ : WorkerSt)], [], 2, 0⟩
    ∧ submitJob ⟨0, "insert", none⟩
        ⟨[⟨true, some ⟨1, "u", none⟩⟩], [], 1, 0⟩
      = ⟨[⟨true, some ⟨1, "u", none⟩⟩], [⟨0, "insert", none⟩], 2, 0⟩ := by
  constructor
  · have h := (submit_characterization ⟨0, "insert", none⟩
      ⟨[⟨true, some ⟨1, "u", none⟩⟩, ⟨false, none⟩], [], 1, 0⟩).2
      [⟨true, some ⟨1, "u", none⟩⟩] ⟨false, none⟩ [] rfl (by decide) rfl
    exact h
  · have h := (submit_characterization ⟨0, "insert", none⟩
      ⟨[⟨true, some ⟨1, "u", none⟩⟩], [], 1, 0⟩).1 (by decide)
    exact h

/-- C6: a completion signal from the busy worker at position i of a
reachable state is handled the same way whatever its result and error
fields say, so an error outcome is treated like a success and the
failed job is not retried or requeued.  The worker is set idle; when
the queue is empty that is all, and when the queue is jq :: rest the
head jq is popped and assigned to that same worker i, re-marking it
busy, in the same handler step, so queued jobs reach workers in FIFO
submission order. -/
theorem completion_reassigns_same_worker (n : Nat) (s : PoolState)
    (r r2 : Signal) (i : Nat) (h : i < s.pool.length)
    (hre : Reachable n s) (hb : (s.pool.get ⟨i, h⟩).busy = true) :
    handleWorkerMessage i r s = handleWorkerMessage i r2 s
    ∧ (s.queue = [] →
        handleWorkerMessage i r s
          = ⟨s.pool.set i ⟨false, none⟩, [], s.submitted, s.completed + 1⟩)
    ∧ ∀ jq rest, s.queue = jq :: rest →
        handleWorkerMessage i r s
          = ⟨s.pool.set i ⟨true, some jq⟩, rest,
              s.submitted, s.completed + 1⟩ := by
  refine ⟨rfl, ?_, ?_⟩
  · intro hq
    simp only [handleWorkerMessage, hq]
  · intro jq rest hq
    obtain ⟨_, _, hqb⟩ := reachable_good n s hre
    have hall : ∀ w ∈ s.pool, w.busy = true := hqb (by rw [hq]; simp)
    have has : assignFirst jq (s.pool.set i ⟨false, none⟩)
        = some (s.pool.set i ⟨true, some jq⟩) :=
      all_busy_assignFirst_set jq s.pool i h hall
    simp only [handleWorkerMessage, hq, assignWorkToWorker, has]

/-- C6 witness: pool of one worker; job A is submitted and assigned,
job B is submitted and queued; the reachable state has the worker busy
and B queued.  An error completion signal for A sets the worker idle
and immediately re-assigns it B, emptying the queue, exactly as a
success signal would. -/
theorem completion_reassigns_same_worker_witness :
    handleWorkerMessage 0 ⟨resultErrorText, some errQueryText⟩
        (submitJob ⟨1, "u", none⟩ (submitJob ⟨0, "insert", none⟩ (initState 1)))
      = handleWorkerMessage 0 ⟨resultSuccessText, none⟩
        (submitJob ⟨1, "u", none⟩ (submitJob ⟨0, "insert", none⟩ (initState 1)))
    ∧ handleWorkerMessage 0 ⟨resultErrorText, some errQueryText⟩
        (submitJob ⟨1, "u", none⟩ (submitJob ⟨0, "insert", none⟩ (initState 1)))
      = ⟨(submitJob ⟨1, "u", none⟩ (submitJob ⟨0, "insert", none⟩
            (initState 1))).pool.set 0 ⟨true, some ⟨1, "u", none⟩⟩, [],
          (submitJob ⟨1, "u", none⟩ (submitJob ⟨0, "insert", none⟩
            (initState 1))).submitted,
          (submitJob ⟨1, "u", none⟩ (submitJob ⟨0, "insert", none⟩
            (initState 1))).completed + 1⟩ := by
  have hre : Reachable 1 (submitJob ⟨1, "u", none⟩
      (submitJob ⟨0, "insert", none⟩ (initState 1))) :=
    Reachable.step
      (Reachable.step Reachable.init (Step.submit ⟨0, "insert", none⟩ (initState 1)))
      (Step.submit ⟨1, "u", none⟩ (submitJob ⟨0, "insert", none⟩ (initState 1)))
  have hc := completion_reassigns_same_worker 1
    (submitJob ⟨1, "u", none⟩ (submitJob ⟨0, "insert", none⟩ (initState 1)))
    ⟨resultErrorText, some errQueryText⟩ ⟨resultSuccessText, none⟩ 0
    (by decide) hre (by decide)
  exact ⟨hc.1, hc.2.2 ⟨1, "u", none⟩ [] rfl⟩

/-- C10 witness: cluster_id c7 inserted once into an empty
cluster_records and not inserted again on the repeat job. -/
theorem cluster_insert_idempotent_witness :
    (onWorkerMessage ⟨false, false⟩ ⟨[], 0⟩
        ⟨0, "insert", some ⟨"c7", 20, 50⟩⟩).clusterInsertAttempts = 1
    ∧ (⟨"c7", 20, 50⟩ : SensorData).cluster_id
        ∈ (onWorkerMessage ⟨false, false⟩ ⟨[], 0⟩
            ⟨0, "insert", some ⟨"c7", 20, 50⟩⟩).db.clusterRecords
    ∧ (onWorkerMessage ⟨false, false⟩
        (onWorkerMessage ⟨false, false⟩ ⟨[], 0⟩
          ⟨0, "insert", some ⟨"c7", 20, 50⟩⟩).db
        ⟨0, "insert", some ⟨"c7", 20, 50⟩⟩).clusterInsertAttempts = 0
    ∧ (onWorkerMessage ⟨false, false⟩
        (onWorkerMessage ⟨false, false⟩ ⟨[], 0⟩
          ⟨0, "insert", some ⟨"c7", 20, 50⟩⟩).db
        ⟨0, "insert", some ⟨"c7", 20, 50⟩⟩).db
      = (onWorkerMessage ⟨false, false⟩ ⟨[], 0⟩
          ⟨0, "insert", some ⟨"c7", 20, 50⟩⟩).db :=
  cluster_insert_idempotent ⟨[], 0⟩ ⟨"c7", 20, 50⟩ (by decide)

end PMS
